import Mathlib

/-!
Verification of the terminal image rendering pipeline of the ttrsscli feed reader:
capability detection, image fetch/cache, aspect-preserving resize, the protocol
encoders and the placement adapter are embedded from
`src/ttrsscli/utils/terminal_graphics.py`, `src/ttrsscli/utils/image.py` and
`src/ttrsscli/ui/terminal_image.py`, and the specified properties are proved or
refuted against that embedding.  Python float arithmetic is modelled with exact
rationals; `int(...)` applied to the nonnegative values that occur is `⌊⌋`.
-/

namespace Ttrsscli

/-- Lowercases one character (model of Python `str.lower` per character for the
ASCII terminal identifiers involved). -/
def charLower (c : Char) : Char := c.toLower

/-- Lowercased character list of a string: model of Python `str.lower()` on the
environment values. -/
def lowerChars (s : String) : List Char := s.toList.map charLower

/-- Helper for substring search: whether `p` is a prefix of `cs`. -/
def startsWithL : List Char → List Char → Bool
  | [], _ => true
  | _ :: _, [] => false
  | p :: ps, c :: cs => p == c && startsWithL ps cs

/-- Model of Python's `pat in s` substring test, as a search over character
lists. -/
def containsSub (hay pat : List Char) : Bool :=
  match hay with
  | [] => pat.isEmpty
  | _ :: t => startsWithL pat hay || containsSub t pat

/-- Terminal types with graphics support (`TerminalType` in
`terminal_graphics.py`). -/
inductive TerminalType where
  | UNKNOWN
  | ITERM2
  | KITTY
  | SIXEL
  | UNICODE
  | BLOCK
  | NONE
  deriving DecidableEq, Repr

/-- Model of `detect_terminal` in `terminal_graphics.py`.  The source reads the
`TERM`, `TERM_PROGRAM` and `COLORTERM` environment variables with default `""`
(absent values are the empty string here) and lowercases each before testing. -/
def detect_terminal (termEnv termProgramEnv colortermEnv : String) : TerminalType :=
  let term := lowerChars termEnv
  let term_program := lowerChars termProgramEnv
  let colorterm := lowerChars colortermEnv
  if term_program = "iterm.app".toList then .ITERM2
  else if term = "xterm-kitty".toList then .KITTY
  else if containsSub term "sixel".toList then .SIXEL
  else if containsSub colorterm "truecolor".toList then .UNICODE
  else if containsSub term "256color".toList then .BLOCK
  else .NONE

/-- C8: the capability decision follows the exact order: native-protocol exact
matches (iTerm2 via `TERM_PROGRAM`, Kitty via `TERM`) first, then a `"sixel"`
substring in the terminal type, then a `"truecolor"` substring in the color
capability, then a `"256color"` substring in the terminal type, else `NONE`;
each later rule applies only when every earlier rule failed, so exactly one
capability is selected. -/
theorem detect_terminal_decision_order (termEnv termProgramEnv colortermEnv : String) :
    (lowerChars termProgramEnv = "iterm.app".toList →
      detect_terminal termEnv termProgramEnv colortermEnv = .ITERM2) ∧
    (lowerChars termProgramEnv ≠ "iterm.app".toList →
      lowerChars termEnv = "xterm-kitty".toList →
      detect_terminal termEnv termProgramEnv colortermEnv = .KITTY) ∧
    (lowerChars termProgramEnv ≠ "iterm.app".toList →
      lowerChars termEnv ≠ "xterm-kitty".toList →
      containsSub (lowerChars termEnv) "sixel".toList = true →
      detect_terminal termEnv termProgramEnv colortermEnv = .SIXEL) ∧
    (lowerChars termProgramEnv ≠ "iterm.app".toList →
      lowerChars termEnv ≠ "xterm-kitty".toList →
      containsSub (lowerChars termEnv) "sixel".toList = false →
      containsSub (lowerChars colortermEnv) "truecolor".toList = true →
      detect_terminal termEnv termProgramEnv colortermEnv = .UNICODE) ∧
    (lowerChars termProgramEnv ≠ "iterm.app".toList →
      lowerChars termEnv ≠ "xterm-kitty".toList →
      containsSub (lowerChars termEnv) "sixel".toList = false →
      containsSub (lowerChars colortermEnv) "truecolor".toList = false →
      containsSub (lowerChars termEnv) "256color".toList = true →
      detect_terminal termEnv termProgramEnv colortermEnv = .BLOCK) ∧
    (lowerChars termProgramEnv ≠ "iterm.app".toList →
      lowerChars termEnv ≠ "xterm-kitty".toList →
      containsSub (lowerChars termEnv) "sixel".toList = false →
      containsSub (lowerChars colortermEnv) "truecolor".toList = false →
      containsSub (lowerChars termEnv) "256color".toList = false →
      detect_terminal termEnv termProgramEnv colortermEnv = .NONE) := by
  unfold detect_terminal
  refine ⟨fun h1 => ?_, fun h1 h2 => ?_, fun h1 h2 h3 => ?_,
    fun h1 h2 h3 h4 => ?_, fun h1 h2 h3 h4 h5 => ?_, fun h1 h2 h3 h4 h5 => ?_⟩
  all_goals simp_all

/-- Witness for C8: an `iTerm.app` terminal program is detected as iTerm2
regardless of the other signals. -/
theorem detect_terminal_decision_order_witness :
    detect_terminal "xterm-256color" "iTerm.app" "" = .ITERM2 :=
  (detect_terminal_decision_order "xterm-256color" "iTerm.app" "").1 (by decide)

/-- Configuration fields of the `TerminalGraphics` class: the cell budget, the
`preserve_aspect_ratio` flag (named `preserveAspect` here) and the detected or
preferred terminal type.  The scaling factors are fixed by `__init__` to
`width_scale = 1.0` and `height_scale = 2.0`. -/
structure GraphicsConfig where
  max_width : ℕ
  max_height : ℕ
  preserveAspect : Bool
  terminal_type : TerminalType
  deriving DecidableEq, Repr

/-- Pixel budget width `int(self.max_width / self.width_scale)` with
`width_scale = 1.0`. -/
def term_width (cfg : GraphicsConfig) : ℕ := cfg.max_width

/-- Pixel budget height `int(self.max_height / self.height_scale)` with
`height_scale = 2.0`; `int` on the nonnegative float is floor division. -/
def term_height (cfg : GraphicsConfig) : ℕ := cfg.max_height / 2

/-- Target-dimension arithmetic of `TerminalGraphics._resize_image`: the scale
factor is `min(term_width / orig_width, term_height / orig_height)` (named
`ratio` in the source), each new dimension is `int(orig * ratio)`, and the
original dimensions are kept when the new ones are at least as large.  A zero
source dimension makes the Python division raise `ZeroDivisionError` (caught
only by `render_image`'s blanket handler), modelled as `.error`. -/
def resize_dims (cfg : GraphicsConfig) (ow oh : ℕ) : Except String (ℕ × ℕ) :=
  let tw := term_width cfg
  let th := term_height cfg
  if cfg.preserveAspect then
    if ow = 0 ∨ oh = 0 then .error "ZeroDivisionError"
    else
      let r : ℚ := min ((tw : ℚ) / (ow : ℚ)) ((th : ℚ) / (oh : ℚ))
      let nw := (⌊(ow : ℚ) * r⌋).toNat
      let nh := (⌊(oh : ℚ) * r⌋).toNat
      if ow ≤ nw ∧ oh ≤ nh then .ok (ow, oh) else .ok (nw, nh)
  else
    if ow ≤ tw ∧ oh ≤ th then .ok (ow, oh) else .ok (tw, th)

/-- C1: for every positive source size and every budget, `_resize_image`'s
target dimensions never exceed the budget converted to pixels
(`term_width × term_height`), and the output aspect ratio matches the source
aspect ratio to within one pixel of rounding in either dimension
(`nw/nh` and `ow/oh` differ by at most one output pixel:
`|nw·oh − nh·ow| ≤ max ow oh`, stated as the two one-sided bounds). -/
theorem resize_dims_fits (cfg : GraphicsConfig) (ow oh : ℕ)
    (hp : cfg.preserveAspect = true) (hw : 0 < ow) (hh : 0 < oh) :
    ∃ nw nh, resize_dims cfg ow oh = .ok (nw, nh) ∧
      nw ≤ term_width cfg ∧ nh ≤ term_height cfg ∧
      nw * oh ≤ nh * ow + ow ∧ nh * ow ≤ nw * oh + oh := by
  have howQ : (0 : ℚ) < (ow : ℚ) := by exact_mod_cast hw
  have hohQ : (0 : ℚ) < (oh : ℚ) := by exact_mod_cast hh
  set tw := term_width cfg with htw
  set th := term_height cfg with hth
  set r : ℚ := min ((tw : ℚ) / (ow : ℚ)) ((th : ℚ) / (oh : ℚ)) with hrdef
  have hr0 : 0 ≤ r := le_min (by positivity) (by positivity)
  have hwr : (ow : ℚ) * r ≤ (tw : ℚ) := by
    have hstep := mul_le_mul_of_nonneg_left
      (min_le_left ((tw : ℚ) / (ow : ℚ)) ((th : ℚ) / (oh : ℚ))) (le_of_lt howQ)
    calc (ow : ℚ) * r ≤ (ow : ℚ) * ((tw : ℚ) / (ow : ℚ)) := hstep
      _ = (tw : ℚ) := by field_simp
  have hhr : (oh : ℚ) * r ≤ (th : ℚ) := by
    have hstep := mul_le_mul_of_nonneg_left
      (min_le_right ((tw : ℚ) / (ow : ℚ)) ((th : ℚ) / (oh : ℚ))) (le_of_lt hohQ)
    calc (oh : ℚ) * r ≤ (oh : ℚ) * ((th : ℚ) / (oh : ℚ)) := hstep
      _ = (th : ℚ) := by field_simp
  set nwZ : ℤ := ⌊(ow : ℚ) * r⌋ with hnwZdef
  set nhZ : ℤ := ⌊(oh : ℚ) * r⌋ with hnhZdef
  have hnwZ0 : 0 ≤ nwZ := Int.floor_nonneg.mpr (by positivity)
  have hnhZ0 : 0 ≤ nhZ := Int.floor_nonneg.mpr (by positivity)
  have hnwt : (nwZ.toNat : ℤ) = nwZ := Int.toNat_of_nonneg hnwZ0
  have hnht : (nhZ.toNat : ℤ) = nhZ := Int.toNat_of_nonneg hnhZ0
  have hnw_le : nwZ ≤ (tw : ℤ) := by
    have h := Int.floor_le_floor hwr
    simpa using h
  have hnh_le : nhZ ≤ (th : ℤ) := by
    have h := Int.floor_le_floor hhr
    simpa using h
  have hfw : (nwZ : ℚ) ≤ (ow : ℚ) * r := Int.floor_le _
  have hfh : (nhZ : ℚ) ≤ (oh : ℚ) * r := Int.floor_le _
  have hgw : (ow : ℚ) * r < (nwZ : ℚ) + 1 := Int.lt_floor_add_one _
  have hgh : (oh : ℚ) * r < (nhZ : ℚ) + 1 := Int.lt_floor_add_one _
  have hA1 : nwZ * (oh : ℤ) ≤ nhZ * (ow : ℤ) + (ow : ℤ) := by
    have hq : (nwZ : ℚ) * (oh : ℚ) < (nhZ : ℚ) * (ow : ℚ) + (ow : ℚ) := by
      nlinarith [mul_le_mul_of_nonneg_right hfw (le_of_lt hohQ),
        mul_lt_mul_of_pos_right hgh howQ]
    have hz : nwZ * (oh : ℤ) < nhZ * (ow : ℤ) + (ow : ℤ) := by exact_mod_cast hq
    exact le_of_lt hz
  have hA2 : nhZ * (ow : ℤ) ≤ nwZ * (oh : ℤ) + (oh : ℤ) := by
    have hq : (nhZ : ℚ) * (ow : ℚ) < (nwZ : ℚ) * (oh : ℚ) + (oh : ℚ) := by
      nlinarith [mul_le_mul_of_nonneg_right hfh (le_of_lt howQ),
        mul_lt_mul_of_pos_right hgw hohQ]
    have hz : nhZ * (ow : ℤ) < nwZ * (oh : ℤ) + (oh : ℤ) := by exact_mod_cast hq
    exact le_of_lt hz
  have hbody : resize_dims cfg ow oh =
      if ow ≤ nwZ.toNat ∧ oh ≤ nhZ.toNat then .ok (ow, oh) else .ok (nwZ.toNat, nhZ.toNat) := by
    simp only [resize_dims, hp, if_true, ← htw, ← hth, ← hrdef, ← hnwZdef, ← hnhZdef]
    rw [if_neg (by omega)]
  by_cases hfit : ow ≤ nwZ.toNat ∧ oh ≤ nhZ.toNat
  · refine ⟨ow, oh, by rw [hbody, if_pos hfit], ?_, ?_, ?_, ?_⟩
    · have h1 : (ow : ℤ) ≤ nwZ := by omega
      have h2 : (ow : ℚ) ≤ (nwZ : ℚ) := by exact_mod_cast h1
      have h3 : (ow : ℚ) ≤ (tw : ℚ) := le_trans h2 (le_trans hfw hwr)
      exact_mod_cast h3
    · have h1 : (oh : ℤ) ≤ nhZ := by omega
      have h2 : (oh : ℚ) ≤ (nhZ : ℚ) := by exact_mod_cast h1
      have h3 : (oh : ℚ) ≤ (th : ℚ) := le_trans h2 (le_trans hfh hhr)
      exact_mod_cast h3
    · rw [Nat.mul_comm]; omega
    · rw [Nat.mul_comm]; omega
  · refine ⟨nwZ.toNat, nhZ.toNat, by rw [hbody, if_neg hfit], by omega, by omega, ?_, ?_⟩
    · have h : (nwZ.toNat * oh : ℤ) ≤ (nhZ.toNat * ow + ow : ℤ) := by
        push_cast [hnwt, hnht]
        exact hA1
      exact_mod_cast h
    · have h : (nhZ.toNat * ow : ℤ) ≤ (nwZ.toNat * oh + oh : ℤ) := by
        push_cast [hnwt, hnht]
        exact hA2
      exact_mod_cast h

/-- Witness for C1: a 400×300 source under an 80×20-cell budget is resized to
fit 80×10 pixels with the aspect bounds satisfied. -/
theorem resize_dims_fits_witness :
    ∃ nw nh, resize_dims ⟨80, 20, true, .UNICODE⟩ 400 300 = .ok (nw, nh) ∧
      nw ≤ term_width ⟨80, 20, true, .UNICODE⟩ ∧
      nh ≤ term_height ⟨80, 20, true, .UNICODE⟩ ∧
      nw * 300 ≤ nh * 400 + 400 ∧ nh * 400 ≤ nw * 300 + 300 :=
  resize_dims_fits ⟨80, 20, true, .UNICODE⟩ 400 300 rfl (by norm_num) (by norm_num)

/-- C5 counterexample: a zero-size source makes `_resize_image` raise
`ZeroDivisionError` rather than produce a 1×1 image, and a zero budget with a
positive source yields a 0×0 image, not 1×1. -/
theorem resize_dims_zero_counterexample :
    resize_dims ⟨80, 20, true, .UNICODE⟩ 0 0 = .error "ZeroDivisionError" ∧
    resize_dims ⟨0, 0, true, .UNICODE⟩ 5 5 = .ok (0, 0) ∧
    (Except.ok ((0 : ℕ), (0 : ℕ)) : Except String (ℕ × ℕ)) ≠ .ok (1, 1) := by
  refine ⟨rfl, ?_, by simp⟩
  norm_num [resize_dims, term_width, term_height]

/-- C5 amended: a zero source dimension hits the `ZeroDivisionError` path
(caught only by `render_image`'s blanket exception handler), and a zero pixel
budget (zero cell width, or cell height below two) with a positive source
yields a degenerate 0×0 image — never a 1×1 image. -/
theorem resize_dims_degenerate (cfg : GraphicsConfig) (ow oh : ℕ)
    (hp : cfg.preserveAspect = true) :
    ((ow = 0 ∨ oh = 0) → resize_dims cfg ow oh = .error "ZeroDivisionError") ∧
    (0 < ow → 0 < oh → (term_width cfg = 0 ∨ term_height cfg = 0) →
      resize_dims cfg ow oh = .ok (0, 0)) := by
  constructor
  · intro hz
    simp only [resize_dims, hp, if_true]
    rw [if_pos hz]
  · intro hw hh hbudget
    have howQ : (0 : ℚ) < (ow : ℚ) := by exact_mod_cast hw
    have hohQ : (0 : ℚ) < (oh : ℚ) := by exact_mod_cast hh
    have hrzero :
        min ((term_width cfg : ℚ) / (ow : ℚ)) ((term_height cfg : ℚ) / (oh : ℚ)) = 0 := by
      rcases hbudget with hb | hb
      · rw [hb]
        simp only [Nat.cast_zero, zero_div]
        exact min_eq_left (by positivity)
      · rw [hb]
        simp only [Nat.cast_zero, zero_div]
        exact min_eq_right (by positivity)
    simp only [resize_dims, hp, if_true, hrzero, mul_zero, Int.floor_zero, Int.toNat_zero]
    rw [if_neg (by omega), if_neg (by omega)]

/-- Witness for C5 (amended): a zero-height source errors; a zero-width budget
with a 400×300 source yields the 0×0 degenerate image. -/
theorem resize_dims_degenerate_witness :
    resize_dims ⟨80, 20, true, .UNICODE⟩ 400 0 = .error "ZeroDivisionError" ∧
    resize_dims ⟨0, 20, true, .UNICODE⟩ 400 300 = .ok (0, 0) :=
  ⟨(resize_dims_degenerate ⟨80, 20, true, .UNICODE⟩ 400 0 rfl).1 (Or.inr rfl),
   (resize_dims_degenerate ⟨0, 20, true, .UNICODE⟩ 400 300 rfl).2
     (by norm_num) (by norm_num) (Or.inl rfl)⟩

/-- Pixel of a decoded raster image; the constructor reflects the PIL mode the
pixel belongs to: an `RGB` triple, an `RGBA` quadruple with alpha, a grayscale
`L` value, or a palette index. -/
inductive Px where
  | rgb (r g b : ℕ)
  | rgba (r g b a : ℕ)
  | gray (v : ℕ)
  | pal (i : ℕ)
  deriving DecidableEq, Repr

/-- PIL image modes occurring in the pipeline. -/
inductive PMode where
  | RGB
  | RGBA
  | L
  | P
  deriving DecidableEq, Repr

/-- Decoded raster image: mode, pixel dimensions, row-major pixel grid, and the
palette table used by palette-mode images. -/
structure PImage where
  mode : PMode
  width : ℕ
  height : ℕ
  rows : List (List Px)
  palette : List (ℕ × ℕ × ℕ)
  deriving DecidableEq, Repr

/-- Whether a pixel's constructor matches the image mode. -/
def pxMatchesMode (m : PMode) (p : Px) : Bool :=
  match m, p with
  | .RGB, .rgb _ _ _ => true
  | .RGBA, .rgba _ _ _ _ => true
  | .L, .gray _ => true
  | .P, .pal _ => true
  | _, _ => false

/-- Well-formedness of a decoded image: the grid has the declared dimensions
and every pixel matches the declared mode (always true of a PIL image). -/
def PImage.wf (img : PImage) : Bool :=
  (img.rows.length == img.height) &&
  img.rows.all (fun row => (row.length == img.width) && row.all (pxMatchesMode img.mode))

/-- Whether a pixel is a plain RGB triple (no alpha, no palette index). -/
def Px.isRgb : Px → Bool
  | .rgb _ _ _ => true
  | _ => false

/-- Alpha-blend of one pixel onto opaque white: the `bg.paste(img, mask=alpha)`
step onto a white `(255,255,255)` background; PIL's fixed-point blend is
modelled as the exact integer blend with floor rounding.  The non-RGBA
constructors cannot occur in a well-formed RGBA image and are passed through. -/
def pasteOnWhitePx : Px → Px
  | .rgba r g b a => .rgb ((r * a + 255 * (255 - a)) / 255) ((g * a + 255 * (255 - a)) / 255)
      ((b * a + 255 * (255 - a)) / 255)
  | .rgb r g b => .rgb r g b
  | .gray v => .rgb v v v
  | .pal i => .rgb i i i

/-- PIL `convert("RGB")` per pixel: grayscale replicates the value into the
three channels, palette pixels look up the image's palette table. -/
def convertRGBPx (palette : List (ℕ × ℕ × ℕ)) : Px → Px
  | .rgb r g b => .rgb r g b
  | .rgba r g b _ => .rgb r g b
  | .gray v => .rgb v v v
  | .pal i =>
      let c := palette.getD i (0, 0, 0)
      .rgb c.1 c.2.1 c.2.2

/-- Mode-normalisation block shared by `render_image`, `_load_image` and
`render_direct`: an RGBA image is composited onto an opaque white background
using its alpha channel, any other non-RGB mode goes through
`convert("RGB")`, and an RGB image is left untouched. -/
def to_rgb (img : PImage) : PImage :=
  match img.mode with
  | .RGBA => { img with mode := .RGB, rows := img.rows.map (fun row => row.map pasteOnWhitePx) }
  | .RGB => img
  | _ => { img with mode := .RGB, rows := img.rows.map (fun row => row.map (convertRGBPx img.palette)) }

/-- Pixel fetch with PIL-style in-range defaulting used by the resampling
model. -/
def samplePx (img : PImage) (x y : ℕ) : Px := (img.rows.getD y []).getD x (.rgb 0 0 0)

/-- Pixel resampling to new dimensions: nearest-neighbour index sampling stands
in for the Lanczos filter, whose arithmetic is not load-bearing for any claim
(only the dimensions and the pixel mode of the result are). -/
def resample (img : PImage) (nw nh : ℕ) : PImage :=
  { img with
    width := nw
    height := nh
    rows := (List.range nh).map (fun y => (List.range nw).map (fun x =>
      samplePx img (x * img.width / max nw 1) (y * img.height / max nh 1))) }

/-- `TerminalGraphics._resize_image` acting on the image: the dimension
arithmetic of `resize_dims`, returning the image unchanged when the computed
dimensions are the original ones (the source's early return) and resampling
otherwise. -/
def resize_image (cfg : GraphicsConfig) (img : PImage) : Except String PImage :=
  match resize_dims cfg img.width img.height with
  | .error e => .error e
  | .ok (nw, nh) =>
    if nw = img.width ∧ nh = img.height then .ok img else .ok (resample img nw nh)

/-- Channel view of a pixel as `getdata()` yields it on an RGB image (the other
constructors are read by their natural channels). -/
def pxRGB : Px → ℕ × ℕ × ℕ
  | .rgb r g b => (r, g, b)
  | .rgba r g b _ => (r, g, b)
  | .gray v => (v, v, v)
  | .pal i => (i, i, i)

/-- Stand-in for the PNG-serialise + base64 step of the native encoders: PIL's
PNG compressor is outside the model, so the payload is a textual serialisation
of the pixel grid.  No claim under verification inspects these payload bytes. -/
def png_b64 (img : PImage) : String :=
  String.intercalate "," (img.rows.flatten.map (fun p =>
    toString (pxRGB p).1 ++ "." ++ toString (pxRGB p).2.1 ++ "." ++ toString (pxRGB p).2.2))

/-- The iTerm2 inline-image escape sequence envelope of `_render_iterm2` (also
built inline by `terminal_image.py`). -/
def iterm2_seq (w h : ℕ) (payload : String) : String :=
  "\x1b]1337;File=inline=1;width=" ++ toString w ++ "px;height=" ++ toString h ++
    "px:" ++ payload ++ "\x07"

/-- The Kitty graphics-protocol escape sequence envelope of `_render_kitty`
(also built inline by `terminal_image.py`). -/
def kitty_seq (w h : ℕ) (payload : String) : String :=
  "\x1b_Ga=T,f=100,s=" ++ toString w ++ ",v=" ++ toString h ++ ":" ++ payload ++ "\x1b\\"

/-- `TerminalGraphics._render_iterm2`. -/
def render_iterm2 (img : PImage) : String := iterm2_seq img.width img.height (png_b64 img)

/-- `TerminalGraphics._render_kitty`. -/
def render_kitty (img : PImage) : String := kitty_seq img.width img.height (png_b64 img)

/-- `TerminalGraphics._render_sixel`: the source is a placeholder that returns
a descriptive string instead of sixel data. -/
def render_sixel (img : PImage) : String :=
  "[Sixel image: " ++ toString img.width ++ "x" ++ toString img.height ++ "]"

/-- `TerminalGraphics._rgb_to_halfblock`: one `▀` glyph with a 24-bit ANSI
foreground from the upper pixel and background from the lower pixel. -/
def rgb_to_halfblock (upper lower : ℕ × ℕ × ℕ) : String :=
  "\x1b[38;2;" ++ toString upper.1 ++ ";" ++ toString upper.2.1 ++ ";" ++
    toString upper.2.2 ++ "m" ++
  "\x1b[48;2;" ++ toString lower.1 ++ ";" ++ toString lower.2.1 ++ ";" ++
    toString lower.2.2 ++ "m" ++ "▀" ++ "\x1b[0m"

/-- Indexing into the chunked pixel list exactly as the source's
`pixels[y][x]` does. -/
def getPixel (pixels : List (List (ℕ × ℕ × ℕ))) (y x : ℕ) : ℕ × ℕ × ℕ :=
  (pixels.getD y []).getD x (0, 0, 0)

/-- `TerminalGraphics._render_unicode`, up to the final newline join: an
odd-height image is padded by pasting it onto a black canvas one row taller;
`getdata()` flattens the grid and the source re-chunks it into `height` rows of
`width`; every two rows become one row of half-block glyphs.  The
`y + 1 >= height` branch of the source is kept although it is unreachable
after the padding made `height` even. -/
def render_unicode_lines (img : PImage) : List String :=
  let width := img.width
  let h0 := img.height
  let height := if h0 % 2 = 1 then h0 + 1 else h0
  let data := if h0 % 2 = 1 then img.rows ++ [List.replicate width (Px.rgb 0 0 0)] else img.rows
  let flat := (data.map (fun row => row.map pxRGB)).flatten
  let pixels := (List.range height).map (fun i => (flat.drop (i * width)).take width)
  (List.range (height / 2)).map (fun rIdx =>
    let y := 2 * rIdx
    String.join ((List.range width).map (fun x =>
      if height ≤ y + 1 then
        rgb_to_halfblock (getPixel pixels y x) (getPixel pixels y x)
      else
        rgb_to_halfblock (getPixel pixels y x) (getPixel pixels (y + 1) x))))

/-- `TerminalGraphics._render_unicode`: the glyph rows joined with newlines. -/
def render_unicode (img : PImage) : String :=
  String.intercalate "\n" (render_unicode_lines img)

/-- Grayscale value of a pixel: PIL `convert("L")` via the ITU-R 601-2 luma
transform, rounding modelled as floor. -/
def toGrayPx (p : Px) : ℕ :=
  let c := pxRGB p
  (c.1 * 299 + c.2.1 * 587 + c.2.2 * 114) / 1000

/-- `TerminalGraphics._render_block`: aggressive downscale to at most half the
cell-width budget, grayscale conversion, and one density character per pixel
from the 10-step ramp; a zero-width image makes the Python `ratio` division
raise. -/
def render_block (cfg : GraphicsConfig) (img : PImage) : Except String String :=
  let new_width := min img.width (cfg.max_width / 2)
  if img.width = 0 then .error "ZeroDivisionError"
  else
    let new_height := img.height * new_width / img.width
    let small := resample img new_width new_height
    let blocks := " .:-=+*#%@".toList
    .ok (String.intercalate "\n" (small.rows.map (fun row =>
      String.mk (row.map (fun p => blocks.getD (min 9 (toGrayPx p / 28)) ' ')))))

/-- Protocol dispatch at the end of `render_image`. -/
def render_dispatch (cfg : GraphicsConfig) (img : PImage) : Except String String :=
  if cfg.terminal_type = .ITERM2 then .ok (render_iterm2 img)
  else if cfg.terminal_type = .KITTY then .ok (render_kitty img)
  else if cfg.terminal_type = .SIXEL then .ok (render_sixel img)
  else if cfg.terminal_type = .UNICODE then .ok (render_unicode img)
  else render_block cfg img

/-- `TerminalGraphics.render_image`: open the image (`decoded = none` models an
`Image.open` failure), normalise the mode to RGB, resize, and dispatch to the
protocol encoder; every exception inside the `try` is caught and replaced by
the text placeholder naming the file. -/
def render_image (cfg : GraphicsConfig) (imageName : String) (decoded : Option PImage) : String :=
  match decoded with
  | none => "[Image: " ++ imageName ++ "]"
  | some img0 =>
    match resize_image cfg (to_rgb img0) with
    | .error _ => "[Image: " ++ imageName ++ "]"
    | .ok img =>
      match render_dispatch cfg img with
      | .ok s => s
      | .error _ => "[Image: " ++ imageName ++ "]"

lemma pasteOnWhitePx_isRgb (p : Px) : (pasteOnWhitePx p).isRgb = true := by
  cases p <;> rfl

lemma convertRGBPx_isRgb (palette : List (ℕ × ℕ × ℕ)) (p : Px) :
    (convertRGBPx palette p).isRgb = true := by
  cases p <;> rfl

lemma pxMatchesMode_rgb_isRgb (p : Px) (h : pxMatchesMode .RGB p = true) : p.isRgb = true := by
  cases p <;> simp_all [pxMatchesMode, Px.isRgb]

lemma to_rgb_mode (img : PImage) : (to_rgb img).mode = .RGB := by
  unfold to_rgb
  cases hm : img.mode <;> simp [hm]

/-- All pixels of the RGB-normalised image are plain RGB triples. -/
lemma to_rgb_allRgb (img : PImage) (hwf : img.wf = true) :
    (to_rgb img).rows.all (fun row => row.all Px.isRgb) = true := by
  unfold to_rgb
  cases hm : img.mode
  case RGBA =>
    simp [List.all_map, Function.comp_def, pasteOnWhitePx_isRgb]
  case RGB =>
    simp only [PImage.wf, Bool.and_eq_true, List.all_eq_true, beq_iff_eq] at hwf
    obtain ⟨-, hall⟩ := hwf
    simp only [List.all_eq_true]
    intro row hrow p hp
    have h2 := (hall row hrow).2
    rw [hm] at h2
    exact pxMatchesMode_rgb_isRgb p (h2 p hp)
  case L =>
    simp [List.all_map, Function.comp_def, convertRGBPx_isRgb]
  case P =>
    simp [List.all_map, Function.comp_def, convertRGBPx_isRgb]

lemma getD_isRgb (l : List Px) (hl : l.all Px.isRgb = true) (x : ℕ) :
    (l.getD x (Px.rgb 0 0 0)).isRgb = true := by
  induction l generalizing x with
  | nil => cases x <;> rfl
  | cons a t ih =>
    simp only [List.all_cons, Bool.and_eq_true] at hl
    cases x with
    | zero => simpa [List.getD] using hl.1
    | succ n => simpa [List.getD] using ih hl.2 n

lemma rows_getD_allRgb (rows : List (List Px))
    (h : rows.all (fun row => row.all Px.isRgb) = true) (y : ℕ) :
    (rows.getD y []).all Px.isRgb = true := by
  induction rows generalizing y with
  | nil => cases y <;> rfl
  | cons a t ih =>
    simp only [List.all_cons, Bool.and_eq_true] at h
    cases y with
    | zero => simpa [List.getD] using h.1
    | succ n => simpa [List.getD] using ih h.2 n

lemma samplePx_isRgb (img : PImage)
    (h : img.rows.all (fun row => row.all Px.isRgb) = true) (x y : ℕ) :
    (samplePx img x y).isRgb = true :=
  getD_isRgb _ (rows_getD_allRgb _ h _) _

lemma resample_allRgb (img : PImage)
    (h : img.rows.all (fun row => row.all Px.isRgb) = true) (nw nh : ℕ) :
    (resample img nw nh).rows.all (fun row => row.all Px.isRgb) = true := by
  simp only [resample, List.all_eq_true, List.mem_map, List.mem_range]
  rintro row ⟨y, -, rfl⟩
  simp only [List.all_eq_true, List.mem_map, List.mem_range]
  rintro p ⟨x, -, rfl⟩
  exact samplePx_isRgb img h _ _

/-- C7: the half-block encoder always emits `(height + 1) / 2` glyph rows in
natural-number division — that is `⌈height/2⌉`: `height/2` rows for even
heights and `(height+1)/2`, not `height/2`, for odd heights (the odd case is
padded to even before pairing). -/
theorem render_unicode_lines_count (img : PImage) :
    (render_unicode_lines img).length = (img.height + 1) / 2 := by
  simp only [render_unicode_lines, List.length_map, List.length_range]
  split_ifs with h <;> omega

/-- Evaluation at the failing input for C6: a 1×1 all-white image has odd
height; the emitted glyph's foreground is the white pixel but its background is
the black `(0,0,0)` padding row the code pastes in — not a duplicate of the
last pixel row, which would give a white background.  The `y + 1 >= height`
duplication branch of the source is unreachable because the height was already
padded to even. -/
theorem render_unicode_odd_height_pads_black :
    render_unicode ⟨.RGB, 1, 1, [[.rgb 255 255 255]], []⟩ =
      "\x1b[38;2;255;255;255m\x1b[48;2;0;0;0m▀\x1b[0m" ∧
    rgb_to_halfblock (255, 255, 255) (0, 0, 0) ≠
      rgb_to_halfblock (255, 255, 255) (255, 255, 255) := by
  constructor
  · decide
  · decide

/-- State of a `DirectTerminalImage` widget: the constructor arguments and the
`rendered` flag (initially `false`, set by a successful `render_direct`, and
never reset anywhere in the source). -/
structure DirectWidget where
  image_path : String
  max_width : ℕ
  max_height : ℕ
  rendered : Bool
  terminal_type : TerminalType
  deriving DecidableEq, Repr

/-- PIL `Image.thumbnail((a, b))` modelled as an aspect-preserving floor fit
that never upscales; the exact PIL rounding of the target size is not
load-bearing for any claim (no claim inspects these dimensions). -/
def thumbnail (img : PImage) (a b : ℕ) : PImage :=
  if img.width ≤ a ∧ img.height ≤ b then img
  else if img.width = 0 ∨ img.height = 0 then img
  else if a * img.height ≤ b * img.width then
    resample img (max 1 a) (max 1 (img.height * a / img.width))
  else
    resample img (max 1 (img.width * b / img.height)) (max 1 b)

/-- `DirectTerminalImage.render_direct`: a no-op when already rendered, when
the terminal has no native protocol, when the file is missing, or when
decoding fails (`decoded = none`; the blanket `except` also swallows any
other error).  Otherwise the image is normalised to RGB, thumbnailed to ten
times the cell budget, encoded into the protocol's escape sequence, written to
stdout in a single write, and the widget is marked `rendered`.  The second
component lists the escape sequences this call writes to the terminal. -/
def render_direct (w : DirectWidget) (fileExists : Bool) (decoded : Option PImage) :
    DirectWidget × List String :=
  if w.rendered then (w, [])
  else if ¬(w.terminal_type = .ITERM2 ∨ w.terminal_type = .KITTY) then (w, [])
  else if ¬(fileExists = true) then (w, [])
  else
    match decoded with
    | none => (w, [])
    | some img0 =>
      let img := thumbnail (to_rgb img0) (w.max_width * 10) (w.max_height * 10)
      let escape_seq :=
        if w.terminal_type = .ITERM2 then iterm2_seq img.width img.height (png_b64 img)
        else kitty_seq img.width img.height (png_b64 img)
      ({ w with rendered := true }, [escape_seq])

/-- `DirectTerminalImage.render`: the list of empty placeholder lines the
widget contributes to the UI layout — `max(1, min(max_height // 2, 10))` blank
lines for a rendered native-protocol widget, a single one otherwise.  The
reservation is computed from the widget's cell budget alone: the displayed
image's pixel dimensions are not stored on the widget and cannot enter the
computation. -/
def placeholder_lines (w : DirectWidget) : List String :=
  let height :=
    if (w.terminal_type = .ITERM2 ∨ w.terminal_type = .KITTY) ∧ w.rendered = true then
      max 1 (min (w.max_height / 2) 10)
    else 1
  List.replicate height ""

/-- The joined placeholder text `render` returns to the UI. -/
def render_placeholder (w : DirectWidget) : String :=
  String.intercalate "\n" (placeholder_lines w)

/-- Modelled from the spec: the number of cell rows covered by an image of the
given declared pixel height under the declared cell ratio of two pixel rows
per cell row; the spec derives the native-path blank-row reservation from this
quantity. -/
def spec_cell_rows (pixelHeight : ℕ) : ℕ := (pixelHeight + 1) / 2

/-- Evaluation at the failing input for C3: a rendered iTerm2 widget with an
80×20-cell budget displaying a 2-pixel-high image reserves
`max(1, min(20 // 2, 10)) = 10` blank rows, while the image's declared pixel
height converts to a single cell row.  The reservation is derived from the
cell budget alone — contradicting the source's own comment at the site
("Reserve space equivalent to image height") — and the claim's 400×300 into
80×20 scenario reserves 10 rows only because `20 // 2` happens to be 10. -/
theorem placeholder_rows_ignore_image_height :
    (placeholder_lines ⟨"tiny.png", 80, 20, true, .ITERM2⟩).length = 10 ∧
    spec_cell_rows 2 = 1 ∧ (10 : ℕ) ≠ 1 := by
  exact ⟨rfl, rfl, by decide⟩

/-- C9 counterexample: two successive direct renders of the same instance —
the first writes the escape sequence once; the second, the re-render, writes
nothing at all (the `rendered` flag is never reset by the source), refuting
the claim that a re-render of the same instance re-emits the escape
sequence. -/
theorem render_direct_rerender_emits_nothing :
    (render_direct ⟨"a.png", 80, 24, false, .ITERM2⟩ true
        (some ⟨.RGB, 1, 1, [[.rgb 0 0 0]], []⟩)).2.length = 1 ∧
    (render_direct (render_direct ⟨"a.png", 80, 24, false, .ITERM2⟩ true
        (some ⟨.RGB, 1, 1, [[.rgb 0 0 0]], []⟩)).1 true
        (some ⟨.RGB, 1, 1, [[.rgb 0 0 0]], []⟩)).2 = [] := by
  exact ⟨rfl, rfl⟩

/-- C9 amended: the `rendered` flag suppresses every write after the first —
once a widget is marked rendered, any later `render_direct` call on the same
instance is a complete no-op (no terminal write, no state change), so
re-renders do not re-emit the escape sequence; a first successful render
writes exactly one escape sequence and sets the flag. -/
theorem render_direct_writes_once (w : DirectWidget) (fileExists : Bool)
    (decoded : Option PImage) :
    (w.rendered = true → render_direct w fileExists decoded = (w, [])) ∧
    (w.rendered = false →
      (w.terminal_type = .ITERM2 ∨ w.terminal_type = .KITTY) →
      fileExists = true → ∀ img0, decoded = some img0 →
      (render_direct w fileExists decoded).1.rendered = true ∧
      (render_direct w fileExists decoded).2.length = 1) := by
  constructor
  · intro hr
    simp [render_direct, hr]
  · intro hr ht hf img0 hd
    subst hd
    subst hf
    simp [render_direct, hr, ht]

/-- Witness for C9 (amended): a concrete already-rendered widget ignores a
further render call, and a concrete fresh Kitty widget writes exactly once. -/
theorem render_direct_writes_once_witness :
    render_direct ⟨"b.png", 80, 24, true, .KITTY⟩ true none =
      (⟨"b.png", 80, 24, true, .KITTY⟩, []) ∧
    ((render_direct ⟨"b.png", 80, 24, false, .KITTY⟩ true
        (some ⟨.RGB, 1, 1, [[.rgb 5 5 5]], []⟩)).1.rendered = true ∧
     (render_direct ⟨"b.png", 80, 24, false, .KITTY⟩ true
        (some ⟨.RGB, 1, 1, [[.rgb 5 5 5]], []⟩)).2.length = 1) :=
  ⟨(render_direct_writes_once ⟨"b.png", 80, 24, true, .KITTY⟩ true none).1 rfl,
   (render_direct_writes_once ⟨"b.png", 80, 24, false, .KITTY⟩ true
      (some ⟨.RGB, 1, 1, [[.rgb 5 5 5]], []⟩)).2 rfl (Or.inr rfl) rfl
      ⟨.RGB, 1, 1, [[.rgb 5 5 5]], []⟩ rfl⟩

/-- Python `str.split(sep)` for a single-character separator; always returns
at least one (possibly empty) piece. -/
def splitOnChar (sep : Char) : List Char → List (List Char)
  | [] => [[]]
  | c :: rest =>
    let r := splitOnChar sep rest
    if c = sep then [] :: r
    else
      match r with
      | [] => [[c]]
      | h :: t => (c :: h) :: t

/-- Python `sep.join(...)` over character lists. -/
def joinWithChar (sep : Char) : List (List Char) → List Char
  | [] => []
  | [x] => x
  | x :: xs => x ++ sep :: joinWithChar sep xs

/-- Python `str.strip("/")`: removes leading and trailing slashes. -/
def stripSlashes (p : List Char) : List Char :=
  ((p.dropWhile (fun c => c == '/')).reverse.dropWhile (fun c => c == '/')).reverse

/-- Model of `pathlib.Path(p).name`: the last nonempty path component (the
stdlib's `.`/`..` normalisation is not modelled; cached image URLs name plain
files). -/
def path_name (p : List Char) : List Char :=
  ((splitOnChar '/' p).filter (fun seg => !seg.isEmpty)).getLastD []

/-- Filename derivation of `fetch_image`: the URL path's basename; the last
part of the stripped path when the basename is empty (Python's
`path_parts[-1] if path_parts else "image"` — `split` never returns an empty
list, so the `"image"` default is the unreachable `getLastD` fallback); and a
`.jpg` extension appended when the name contains no dot. -/
def derive_filename (path : List Char) : List Char :=
  let filename := path_name path
  let filename :=
    if filename.isEmpty then
      (splitOnChar '/' (stripSlashes path)).getLastD "image".toList
    else filename
  if filename.contains '.' then filename else filename ++ ".jpg".toList

/-- Collision-disambiguated candidate filename of the `while
cache_path.exists()` loop: count 0 is the filename itself; count `n ≥ 1`
inserts `_n` before the extension (the part after the last dot) or appends
`_n` when there is no dot. -/
def candidate_name (filename : List Char) (count : ℕ) : List Char :=
  if count = 0 then filename
  else
    let name_parts := splitOnChar '.' filename
    if 1 < name_parts.length then
      joinWithChar '.' name_parts.dropLast ++ ('_' :: (toString count).toList) ++
        ('.' :: name_parts.getLastD [])
    else filename ++ ('_' :: (toString count).toList)

/-- The first collision counter whose candidate name is not on disk — the
result of the `while cache_path.exists()` loop.  At most `|disk|` candidates
can collide, so the bounded search over `0..|disk|` finds the loop's result;
the fallback value is unreachable. -/
def free_count (disk : List (List Char)) (filename : List Char) : ℕ :=
  match (List.range (disk.length + 1)).find?
      (fun c => !(disk.contains (candidate_name filename c))) with
  | some c => c
  | none => disk.length + 1

/-- Outcome of the HTTP GET for a URL: success, a non-success status turned
into an exception by `raise_for_status`, or a network/timeout error raised by
the client itself. -/
inductive NetResult where
  | ok
  | httpError (status : ℕ)
  | netError
  deriving DecidableEq, Repr

/-- A URL together with the path component `urllib.parse.urlparse` extracts
from it (the stdlib parser itself is not modelled); the full URL string is the
cache key. -/
structure Url where
  url : String
  path : List Char
  deriving DecidableEq, Repr

/-- State owned by `ImageHandler`: the in-memory `image_cache` URL→path index
(an association list, newest entry first) and the filenames existing in the
exclusively-managed cache directory; paths are recorded relative to
`cache_dir`. -/
structure CacheState where
  cache : List (String × String)
  disk : List (List Char)
  deriving DecidableEq, Repr

/-- `ImageHandler.fetch_image`: a cached URL returns its path with no network
request; otherwise a filename is derived and collision-disambiguated, the URL
fetched (`resp`; exactly one request), and on success — when the cache file is
writable — the body is saved, the index updated and the path returned.  Every
failure (network error, non-success status via `raise_for_status`, unwritable
cache file) is caught by the blanket `except` and yields Python `None`,
modelled as `none`, with the state unchanged.  The last component counts the
network requests the call performs. -/
def fetch_image (resp : NetResult) (writable : Bool) (u : Url) (s : CacheState) :
    Option String × CacheState × ℕ :=
  match s.cache.lookup u.url with
  | some p => (some p, s, 0)
  | none =>
    let filename := derive_filename u.path
    let cache_path := candidate_name filename (free_count s.disk filename)
    match resp with
    | .ok =>
      if writable then
        (some (String.mk cache_path),
          ⟨(u.url, String.mk cache_path) :: s.cache, cache_path :: s.disk⟩, 1)
      else (none, s, 1)
    | .httpError _ => (none, s, 1)
    | .netError => (none, s, 1)

lemma lookup_none_key_not_mem (k : String) (l : List (String × String))
    (h : l.lookup k = none) : k ∉ l.map Prod.fst := by
  induction l with
  | nil => simp
  | cons hd t ih =>
    obtain ⟨a, b⟩ := hd
    by_cases hk : k = a
    · subst hk
      simp [List.lookup] at h
    · have hbeq : (k == a) = false := beq_eq_false_iff_ne.mpr hk
      simp only [List.lookup, hbeq] at h
      simp only [List.map_cons, List.mem_cons, not_or]
      exact ⟨hk, ih h⟩

/-- C2 counterexample: for a URL whose retrieval fails, the first call caches
nothing, so an identical second call performs a second network request — two
requests in total, not at most one — and neither call returns a cached path. -/
theorem fetch_image_two_failures_two_requests :
    (fetch_image .netError true ⟨"http://e.com/a.png", "/a.png".toList⟩ ⟨[], []⟩).2.2 +
      (fetch_image .netError true ⟨"http://e.com/a.png", "/a.png".toList⟩
        (fetch_image .netError true ⟨"http://e.com/a.png", "/a.png".toList⟩
          ⟨[], []⟩).2.1).2.2 = 2 ∧
    (fetch_image .netError true ⟨"http://e.com/a.png", "/a.png".toList⟩ ⟨[], []⟩).1 =
      none := by
  exact ⟨rfl, rfl⟩

/-- C2 amended: each `fetch_image` call performs at most one network request;
whenever a call returns a path (a cache hit or a successful download), an
immediately repeated call for the same URL is a pure cache hit — no network
request, the identical path, unchanged state — so two calls of which the
first succeeds perform at most one request in total; and the cache index never
gains a duplicate URL key.  When the first call fails, nothing is cached and a
second call retries the network (the counterexample's situation). -/
theorem fetch_image_idempotent_on_success (resp : NetResult) (writable : Bool)
    (u : Url) (s : CacheState) :
    ((fetch_image resp writable u s).2.2 ≤ 1) ∧
    (∀ p, (fetch_image resp writable u s).1 = some p →
      ∀ resp2 writable2,
        fetch_image resp2 writable2 u (fetch_image resp writable u s).2.1 =
          (some p, (fetch_image resp writable u s).2.1, 0)) ∧
    ((s.cache.map Prod.fst).Nodup →
      (((fetch_image resp writable u s).2.1).cache.map Prod.fst).Nodup) := by
  rcases hlook : s.cache.lookup u.url with _ | p0
  · rcases resp with _ | st | _
    · by_cases hwrt : writable = true
      · subst hwrt
        refine ⟨?_, ?_, ?_⟩
        · simp [fetch_image, hlook]
        · intro p hp resp2 writable2
          simp only [fetch_image, hlook] at hp ⊢
          cases hp
          simp [List.lookup]
        · intro hnd
          simp only [fetch_image, hlook, if_pos rfl, List.map_cons]
          exact List.nodup_cons.mpr ⟨lookup_none_key_not_mem u.url s.cache hlook, hnd⟩
      · have hw : writable = false := by simpa using hwrt
        subst hw
        refine ⟨?_, ?_, ?_⟩
        · simp [fetch_image, hlook]
        · intro p hp
          simp [fetch_image, hlook] at hp
        · intro hnd
          simpa [fetch_image, hlook] using hnd
    · refine ⟨?_, ?_, ?_⟩
      · simp [fetch_image, hlook]
      · intro p hp
        simp [fetch_image, hlook] at hp
      · intro hnd
        simpa [fetch_image, hlook] using hnd
    · refine ⟨?_, ?_, ?_⟩
      · simp [fetch_image, hlook]
      · intro p hp
        simp [fetch_image, hlook] at hp
      · intro hnd
        simpa [fetch_image, hlook] using hnd
  · refine ⟨?_, ?_, ?_⟩
    · simp [fetch_image, hlook]
    · intro p hp resp2 writable2
      simp only [fetch_image, hlook] at hp ⊢
      cases hp
      rfl
    · intro hnd
      simpa [fetch_image, hlook] using hnd

/-- Witness for C2 (amended): after a successful fetch of a fresh URL, a
repeat call — even with the network now failing — returns the identical cached
path with no further request and no state change. -/
theorem fetch_image_idempotent_witness :
    fetch_image .netError false ⟨"http://e.com/a.png", "/a.png".toList⟩
        (fetch_image .ok true ⟨"http://e.com/a.png", "/a.png".toList⟩ ⟨[], []⟩).2.1 =
      (some "a.png",
        (fetch_image .ok true ⟨"http://e.com/a.png", "/a.png".toList⟩ ⟨[], []⟩).2.1, 0) :=
  (fetch_image_idempotent_on_success .ok true ⟨"http://e.com/a.png", "/a.png".toList⟩
      ⟨[], []⟩).2.1 "a.png" rfl .netError false

/-- C4: for a URL not in the cache whose retrieval fails — a network/timeout
error, a non-success HTTP status such as 404, or an unwritable cache file —
`fetch_image` returns the typed failure value (Python's `None`, `none` in this
embedding) instead of a cached path, swallows the exception inside the
function (the model is a total function returning the failure as a value),
and leaves the cache state completely unchanged; exactly the one failed
network request is made. -/
theorem fetch_image_failure_returns_none (resp : NetResult) (writable : Bool)
    (u : Url) (s : CacheState) (hmiss : s.cache.lookup u.url = none)
    (hfail : resp = .netError ∨ (∃ st, resp = .httpError st) ∨ writable = false) :
    fetch_image resp writable u s = (none, s, 1) := by
  rcases hfail with rfl | ⟨st, rfl⟩ | hw
  · simp [fetch_image, hmiss]
  · simp [fetch_image, hmiss]
  · subst hw
    rcases resp with _ | st | _ <;> simp [fetch_image, hmiss]

/-- Witness for C4: an HTTP 404 on a fresh URL yields `none` and leaves the
empty cache state untouched. -/
theorem fetch_image_failure_returns_none_witness :
    fetch_image (.httpError 404) true ⟨"http://e.com/b.png", "/b.png".toList⟩ ⟨[], []⟩ =
      (none, ⟨[], []⟩, 1) :=
  fetch_image_failure_returns_none (.httpError 404) true
    ⟨"http://e.com/b.png", "/b.png".toList⟩ ⟨[], []⟩ rfl (Or.inr (Or.inl ⟨404, rfl⟩))

/-- Value of `TerminalImage.renderable` after `_load_image`: the native-path
preparation (the thumbnailed image whose dimensions and PNG/base64 payload are
stored on the widget for the later escape-sequence build), the rich-pixels
renderable built from the thumbnailed image, or `none`
(`self.renderable = None`) when the file is missing or loading raised. -/
inductive LoadedRenderable where
  | native (img : PImage) (b64 : String)
  | pixels (img : PImage)
  | noRender
  deriving DecidableEq, Repr

/-- `TerminalImage._load_image`: a missing file or a decode failure yields no
renderable; otherwise the image is normalised to RGB, then either thumbnailed
to ten times the cell budget and PNG/base64-encoded (native protocols enabled
on an iTerm2/Kitty terminal) or thumbnailed to the cell budget for the
rich-pixels encoder. -/
def load_image (use_native : Bool) (tt : TerminalType) (mw mh : ℕ)
    (fileExists : Bool) (decoded : Option PImage) : LoadedRenderable :=
  if ¬(fileExists = true) then .noRender
  else
    match decoded with
    | none => .noRender
    | some img0 =>
      let img1 := to_rgb img0
      if use_native = true ∧ (tt = .ITERM2 ∨ tt = .KITTY) then
        let img := thumbnail img1 (mw * 10) (mh * 10)
        .native img (png_b64 img)
      else
        .pixels (thumbnail img1 mw mh)

/-- The image `render_direct` encodes and writes on its success path: the
RGB-normalised source thumbnailed to ten times the cell budget. -/
def direct_encoded_image (w : DirectWidget) (img0 : PImage) : PImage :=
  thumbnail (to_rgb img0) (w.max_width * 10) (w.max_height * 10)

lemma thumbnail_mode (img : PImage) (a b : ℕ) : (thumbnail img a b).mode = img.mode := by
  unfold thumbnail
  split_ifs <;> rfl

lemma thumbnail_allRgb (img : PImage)
    (h : img.rows.all (fun row => row.all Px.isRgb) = true) (a b : ℕ) :
    (thumbnail img a b).rows.all (fun row => row.all Px.isRgb) = true := by
  unfold thumbnail
  split_ifs <;> first | exact h | exact resample_allRgb _ h _ _

/-- C10: every encoding path operates only on RGB pixel data.  Each of the
three encoding sites first runs the shared normalisation block (an RGBA source
is composited onto an opaque white background using its alpha channel, any
other non-RGB mode goes through `convert("RGB")`), so — whatever the decoded
source's mode — the image received by `render_image`'s protocol dispatch, the
image behind `_load_image`'s native PNG/base64 data and behind its rich-pixels
renderable, and the image whose encoding `render_direct` writes to the
terminal are all in RGB mode with every pixel a plain RGB triple: no alpha and
no palette data ever reach an encoder. -/
theorem encoding_paths_receive_rgb (img0 : PImage) (hwf : img0.wf = true) :
    (∀ cfg imageName img, resize_image cfg (to_rgb img0) = .ok img →
      img.mode = .RGB ∧
      img.rows.all (fun row => row.all Px.isRgb) = true ∧
      render_image cfg imageName (some img0) =
        (match render_dispatch cfg img with
         | .ok s => s
         | .error _ => "[Image: " ++ imageName ++ "]")) ∧
    (∀ useNative tt mw mh fileExists img b64,
      load_image useNative tt mw mh fileExists (some img0) = .native img b64 →
      img.mode = .RGB ∧
      img.rows.all (fun row => row.all Px.isRgb) = true ∧
      b64 = png_b64 img) ∧
    (∀ useNative tt mw mh fileExists img,
      load_image useNative tt mw mh fileExists (some img0) = .pixels img →
      img.mode = .RGB ∧
      img.rows.all (fun row => row.all Px.isRgb) = true) ∧
    (∀ w fileExists, w.rendered = false →
      (w.terminal_type = .ITERM2 ∨ w.terminal_type = .KITTY) → fileExists = true →
      (direct_encoded_image w img0).mode = .RGB ∧
      (direct_encoded_image w img0).rows.all (fun row => row.all Px.isRgb) = true ∧
      (render_direct w fileExists (some img0)).2 =
        [if w.terminal_type = .ITERM2 then
            iterm2_seq (direct_encoded_image w img0).width
              (direct_encoded_image w img0).height (png_b64 (direct_encoded_image w img0))
          else
            kitty_seq (direct_encoded_image w img0).width
              (direct_encoded_image w img0).height
              (png_b64 (direct_encoded_image w img0))]) := by
  have hall := to_rgb_allRgb img0 hwf
  have hmode := to_rgb_mode img0
  refine ⟨?_, ?_, ?_, ?_⟩
  · intro cfg imageName img h
    have himg : img = to_rgb img0 ∨
        ∃ nw nh, img = resample (to_rgb img0) nw nh := by
      unfold resize_image at h
      split at h
      · cases h
      · rename_i nw nh heq
        split at h
        · exact Or.inl (Except.ok.inj h).symm
        · exact Or.inr ⟨nw, nh, (Except.ok.inj h).symm⟩
    refine ⟨?_, ?_, ?_⟩
    · rcases himg with rfl | ⟨nw, nh, rfl⟩
      · exact hmode
      · simpa [resample] using hmode
    · rcases himg with rfl | ⟨nw, nh, rfl⟩
      · exact hall
      · exact resample_allRgb _ hall nw nh
    · simp only [render_image, h]
  · intro useNative tt mw mh fileExists img b64 h
    unfold load_image at h
    split at h
    · exact LoadedRenderable.noConfusion h
    · split at h
      · exact LoadedRenderable.noConfusion h
      · rename_i img0' heq
        injection heq with heq
        subst heq
        dsimp only at h
        split at h
        · injection h with h1 h2
          subst h1
          exact ⟨(thumbnail_mode _ _ _).trans hmode,
            thumbnail_allRgb _ hall _ _, h2.symm⟩
        · exact LoadedRenderable.noConfusion h
  · intro useNative tt mw mh fileExists img h
    unfold load_image at h
    split at h
    · exact LoadedRenderable.noConfusion h
    · split at h
      · exact LoadedRenderable.noConfusion h
      · rename_i img0' heq
        injection heq with heq
        subst heq
        dsimp only at h
        split at h
        · exact LoadedRenderable.noConfusion h
        · injection h with h1
          subst h1
          exact ⟨(thumbnail_mode _ _ _).trans hmode, thumbnail_allRgb _ hall _ _⟩
  · intro w fileExists hr ht hf
    subst hf
    refine ⟨?_, ?_, ?_⟩
    · exact (thumbnail_mode _ _ _).trans hmode
    · exact thumbnail_allRgb _ hall _ _
    · simp [render_direct, direct_encoded_image, hr, ht]

/-- Witness for C10: a concrete 1×1 RGBA pixel, composited onto white, reaches
all three encoding sites as a pure RGB image. -/
theorem encoding_paths_receive_rgb_witness :
    ((⟨.RGB, 1, 1, [[.rgb 10 20 30]], []⟩ : PImage).mode = .RGB ∧
      (⟨.RGB, 1, 1, [[.rgb 10 20 30]], []⟩ : PImage).rows.all
        (fun row => row.all Px.isRgb) = true ∧
      render_image ⟨80, 20, false, .UNICODE⟩ "a.png"
          (some ⟨.RGBA, 1, 1, [[.rgba 10 20 30 255]], []⟩) =
        (match render_dispatch ⟨80, 20, false, .UNICODE⟩
            (⟨.RGB, 1, 1, [[.rgb 10 20 30]], []⟩ : PImage) with
         | .ok s => s
         | .error _ => "[Image: " ++ "a.png" ++ "]")) ∧
    ((⟨.RGB, 1, 1, [[.rgb 10 20 30]], []⟩ : PImage).mode = .RGB ∧
      (⟨.RGB, 1, 1, [[.rgb 10 20 30]], []⟩ : PImage).rows.all
        (fun row => row.all Px.isRgb) = true ∧
      png_b64 (⟨.RGB, 1, 1, [[.rgb 10 20 30]], []⟩ : PImage) =
        png_b64 (⟨.RGB, 1, 1, [[.rgb 10 20 30]], []⟩ : PImage)) ∧
    ((⟨.RGB, 1, 1, [[.rgb 10 20 30]], []⟩ : PImage).mode = .RGB ∧
      (⟨.RGB, 1, 1, [[.rgb 10 20 30]], []⟩ : PImage).rows.all
        (fun row => row.all Px.isRgb) = true) ∧
    ((direct_encoded_image ⟨"a.png", 80, 24, false, .ITERM2⟩
        ⟨.RGBA, 1, 1, [[.rgba 10 20 30 255]], []⟩).mode = .RGB ∧
      (direct_encoded_image ⟨"a.png", 80, 24, false, .ITERM2⟩
        ⟨.RGBA, 1, 1, [[.rgba 10 20 30 255]], []⟩).rows.all
          (fun row => row.all Px.isRgb) = true ∧
      (render_direct ⟨"a.png", 80, 24, false, .ITERM2⟩ true
          (some ⟨.RGBA, 1, 1, [[.rgba 10 20 30 255]], []⟩)).2 =
        [if (⟨"a.png", 80, 24, false, .ITERM2⟩ : DirectWidget).terminal_type = .ITERM2 then
            iterm2_seq (direct_encoded_image ⟨"a.png", 80, 24, false, .ITERM2⟩
                ⟨.RGBA, 1, 1, [[.rgba 10 20 30 255]], []⟩).width
              (direct_encoded_image ⟨"a.png", 80, 24, false, .ITERM2⟩
                ⟨.RGBA, 1, 1, [[.rgba 10 20 30 255]], []⟩).height
              (png_b64 (direct_encoded_image ⟨"a.png", 80, 24, false, .ITERM2⟩
                ⟨.RGBA, 1, 1, [[.rgba 10 20 30 255]], []⟩))
          else
            kitty_seq (direct_encoded_image ⟨"a.png", 80, 24, false, .ITERM2⟩
                ⟨.RGBA, 1, 1, [[.rgba 10 20 30 255]], []⟩).width
              (direct_encoded_image ⟨"a.png", 80, 24, false, .ITERM2⟩
                ⟨.RGBA, 1, 1, [[.rgba 10 20 30 255]], []⟩).height
              (png_b64 (direct_encoded_image ⟨"a.png", 80, 24, false, .ITERM2⟩
                ⟨.RGBA, 1, 1, [[.rgba 10 20 30 255]], []⟩))]) :=
  ⟨(encoding_paths_receive_rgb ⟨.RGBA, 1, 1, [[.rgba 10 20 30 255]], []⟩ (by decide)).1
      ⟨80, 20, false, .UNICODE⟩ "a.png" ⟨.RGB, 1, 1, [[.rgb 10 20 30]], []⟩ rfl,
   (encoding_paths_receive_rgb ⟨.RGBA, 1, 1, [[.rgba 10 20 30 255]], []⟩ (by decide)).2.1
      true .ITERM2 8 2 true ⟨.RGB, 1, 1, [[.rgb 10 20 30]], []⟩
      (png_b64 (⟨.RGB, 1, 1, [[.rgb 10 20 30]], []⟩ : PImage)) rfl,
   (encoding_paths_receive_rgb ⟨.RGBA, 1, 1, [[.rgba 10 20 30 255]], []⟩ (by decide)).2.2.1
      false .NONE 80 20 true ⟨.RGB, 1, 1, [[.rgb 10 20 30]], []⟩ rfl,
   (encoding_paths_receive_rgb ⟨.RGBA, 1, 1, [[.rgba 10 20 30 255]], []⟩ (by decide)).2.2.2
      ⟨"a.png", 80, 24, false, .ITERM2⟩ true rfl (Or.inl rfl) rfl⟩

end Ttrsscli
